import Mathlib

/-!
Shallow embedding of the hr-learning vocabulary trainer.

The embedded code comes from `src/store/helpers.ts`, `src/utils/storage.ts`
and `src/store/quizStore.ts`.  JavaScript objects used as string-keyed maps
are modelled as association lists in key-insertion order; `Date` timestamps
and the random source are injected as explicit parameters, so every
definition is executable and deterministic.
-/

namespace HrLearning

/-- Translation direction (`Mode` in `src/store/helpers.ts`): `"de-to-en"` or `"en-to-de"`. -/
inductive Mode where
  | deToEn
  | enToDe
deriving DecidableEq, Repr

/-- A vocabulary record (`VocabItem` in `src/data/vocab.ts`). -/
structure VocabItem where
  id : String
  de : String
  en : String
  difficulty : String
  tags : List String
deriving DecidableEq, Repr

/-- A quiz option (`Choice` in `src/store/helpers.ts`). -/
structure Choice where
  text : String
  isCorrect : Bool
deriving DecidableEq, Repr

/-- JavaScript falsiness of an optional string: `undefined` or the empty string. -/
def strFalsy : Option String → Bool
  | none => true
  | some s => s == ""

/-- `filterVocab` from `src/store/helpers.ts`, branch for branch:
first the `difficulty === "failed" && failedWordIds` branch, then the
`!difficulty || difficulty === "all"` branch, then the tier comparison. -/
def filterVocab (items : List VocabItem) (difficulty : Option String)
    (failedWordIds : Option (List String)) : List VocabItem :=
  items.filter fun it =>
    if difficulty == some "failed" && failedWordIds.isSome then
      (failedWordIds.getD []).contains it.id
    else if strFalsy difficulty || difficulty == some "all" then true
    else if difficulty.isSome && (some it.difficulty != difficulty) then false
    else true

/-- Swap two positions of a list (out-of-range indices leave the list unchanged). -/
def listSwap {α : Type} (l : List α) (i j : Nat) : List α :=
  match l.get? i, l.get? j with
  | some x, some y => (l.set i y).set j x
  | _, _ => l

/-- The Fisher–Yates loop of `shuffleArray`: `i` runs from `length - 1` down to `1`. -/
def shuffleGo {α : Type} (randJ : Nat → Nat) : Nat → List α → List α
  | 0, acc => acc
  | i + 1, acc => shuffleGo randJ i (listSwap acc (i + 1) (min (randJ (i + 1)) (i + 1)))

/-- `shuffleArray` from `src/store/helpers.ts` with injected randomness:
`randJ i` models `Math.floor(Math.random() * (i + 1))`, clamped into `[0, i]`.
`randJ = fun i => i` yields the identity permutation (all swaps are self-swaps),
a draw Fisher–Yates can genuinely produce. -/
def shuffleArray {α : Type} (randJ : Nat → Nat) (items : List α) : List α :=
  shuffleGo randJ (items.length - 1) items

/-- Semantics of JavaScript `String.prototype.trim()`: drop leading and trailing
whitespace.  (Defined over the character list so that it is kernel-reducible.) -/
def jsTrim (s : String) : String :=
  String.mk (((s.toList.dropWhile Char.isWhitespace).reverse.dropWhile
    Char.isWhitespace).reverse)

/-- Semantics of JavaScript `String.prototype.toLowerCase()` on the ASCII range. -/
def jsToLower (s : String) : String :=
  String.mk (s.toList.map Char.toLower)

/-- The target-language term of a word under the active mode
(`mode === "de-to-en" ? v.en : v.de`). -/
def targetTerm (mode : Mode) (v : VocabItem) : String :=
  match mode with
  | .deToEn => v.en
  | .enToDe => v.de

/-- `getChoices` from `src/store/helpers.ts`.  The two `sort(() => Math.random() - 0.5)`
calls are injected as `shuffleOthers` and `shuffleOptions`; a JavaScript sort always
returns a permutation of its input, which is the hypothesis the theorems use. -/
def getChoices (shuffleOthers : List VocabItem → List VocabItem)
    (shuffleOptions : List Choice → List Choice)
    (vocab : List VocabItem) (current : VocabItem) (mode : Mode) : List Choice :=
  let others := vocab.filter fun v => v.id != current.id
  let shuffled := shuffleOthers others
  let distractors := shuffled.take 3
  let correct := targetTerm mode current
  let options : List Choice :=
    { text := correct, isCorrect := true } ::
      distractors.map fun v => { text := targetTerm mode v, isCorrect := false }
  shuffleOptions options

/-- Per-word statistics (`WordStats` in `src/utils/storage.ts`). -/
structure WordStats where
  attempts : Nat
  correct : Nat
  lastAttempted : String
deriving DecidableEq, Repr

/-- The persisted stats record (`Stats` in `src/utils/storage.ts`).  The optional
`wordStats` object is an association list in key-insertion order; `none` models an
older stored record in which the field is absent (`wordStats?:` in the interface). -/
structure Stats where
  correct : Nat
  attempts : Nat
  lastSessionDate : String
  wordStats : Option (List (String × WordStats))
deriving DecidableEq, Repr

/-- JavaScript `{...obj, [k]: v}` on a string-keyed object: if the key exists its
value is replaced in place (key order kept), otherwise the key is appended last. -/
def objSet (m : List (String × WordStats)) (k : String) (v : WordStats) :
    List (String × WordStats) :=
  if m.any fun p => p.1 == k then
    m.map fun p => if p.1 == k then (k, v) else p
  else m ++ [(k, v)]

/-- Property read `obj[k]` on a string-keyed object. -/
def lookupWord (m : List (String × WordStats)) (k : String) : Option WordStats :=
  match m with
  | [] => none
  | p :: rest => if p.1 == k then some p.2 else lookupWord rest k

/-- `loadStats` from `src/utils/storage.ts` on a successfully parsed stored record:
`{ ...parsed, wordStats: parsed.wordStats || {} }` — backward-compatible defaulting
of the per-word map (a present empty object is truthy and kept). -/
def loadStats (parsed : Stats) : Stats :=
  { parsed with wordStats := some (parsed.wordStats.getD []) }

/-- Hexadecimal digit for `JSON.stringify` control-character escapes. -/
def hexDigit (n : Nat) : Char :=
  if n < 10 then Char.ofNat (48 + n) else Char.ofNat (87 + n)

/-- `JSON.stringify` escaping of one string character. -/
def escapeChar (c : Char) : String :=
  if c = '"' then "\\\""
  else if c = '\\' then "\\\\"
  else if c = Char.ofNat 8 then "\\b"
  else if c = Char.ofNat 9 then "\\t"
  else if c = Char.ofNat 10 then "\\n"
  else if c = Char.ofNat 12 then "\\f"
  else if c = Char.ofNat 13 then "\\r"
  else if c.toNat < 32 then
    "\\u00" ++ String.mk [hexDigit (c.toNat / 16), hexDigit (c.toNat % 16)]
  else String.mk [c]

/-- `JSON.stringify` of a string value. -/
def jsonStr (s : String) : String :=
  "\"" ++ String.join (s.toList.map escapeChar) ++ "\""

/-- `JSON.stringify` of a `WordStats` object, keys in creation order. -/
def jsonOfWordStats (w : WordStats) : String :=
  "\x7b\"attempts\":" ++ toString w.attempts ++ ",\"correct\":" ++ toString w.correct ++
    ",\"lastAttempted\":" ++ jsonStr w.lastAttempted ++ "\x7d"

/-- `JSON.stringify` of the per-word map, entries in key order. -/
def jsonOfWordStatsMap (m : List (String × WordStats)) : String :=
  "\x7b" ++ String.intercalate ","
    (m.map fun p => jsonStr p.1 ++ ":" ++ jsonOfWordStats p.2) ++ "\x7d"

/-- `JSON.stringify` of a `Stats` record, keys in declaration order; an absent
(`undefined`) `wordStats` is omitted from the output, exactly as `JSON.stringify`
omits `undefined` properties. -/
def jsonOfStats (s : Stats) : String :=
  "\x7b\"correct\":" ++ toString s.correct ++ ",\"attempts\":" ++ toString s.attempts ++
    ",\"lastSessionDate\":" ++ jsonStr s.lastSessionDate ++
    (match s.wordStats with
      | none => ""
      | some m => ",\"wordStats\":" ++ jsonOfWordStatsMap m) ++ "\x7d"

/-- `saveStats` from `src/utils/storage.ts`: the bytes written to localStorage. -/
def saveStats (s : Stats) : String := jsonOfStats s

/-- `clearStats` from `src/utils/storage.ts`: the zeroed record it returns. -/
def clearStats (now : String) : Stats :=
  { correct := 0, attempts := 0, lastSessionDate := now, wordStats := some [] }

/-- `updateWordStats` from `src/utils/storage.ts`; `now` injects `new Date().toISOString()`. -/
def updateWordStats (now : String) (stats : Stats) (wordId : String)
    (isCorrect : Bool) : Stats :=
  let wordStats := stats.wordStats.getD []
  let currentWordStats := (lookupWord wordStats wordId).getD
    { attempts := 0, correct := 0, lastAttempted := now }
  { stats with
    wordStats := some (objSet wordStats wordId
      { attempts := currentWordStats.attempts + 1
        correct := currentWordStats.correct + (if isCorrect then 1 else 0)
        lastAttempted := now }) }

/-- `getFailedWordIds` from `src/utils/storage.ts`:
`Object.keys(wordStats).filter(id => wordStats[id].attempts > wordStats[id].correct)`. -/
def getFailedWordIds (stats : Stats) : List String :=
  ((stats.wordStats.getD []).map Prod.fst).filter fun wordId =>
    match lookupWord (stats.wordStats.getD []) wordId with
    | some ws => decide (ws.correct < ws.attempts)
    | none => false

/-- An injected random source: `randJ` feeds the Fisher–Yates shuffle, the other two
fields stand for the two random `sort` calls inside `getChoices`. -/
structure Rng where
  randJ : Nat → Nat
  shuffleOthers : List VocabItem → List VocabItem
  shuffleOptions : List Choice → List Choice

/-- `getChoices` applied through an `Rng`. -/
def getChoicesR (rng : Rng) (vocab : List VocabItem) (current : VocabItem)
    (mode : Mode) : List Choice :=
  getChoices rng.shuffleOthers rng.shuffleOptions vocab current mode

/-- The zustand store state (`QuizState` in `src/store/quizStore.ts`). -/
structure QuizState where
  index : Nat
  mode : Mode
  difficulty : String
  shuffled : List VocabItem
  displayWord : Option VocabItem
  displayChoices : List Choice
  hasAnswered : Bool
  userInput : String
  lastResult : Option Bool
  showHelp : Bool
  menuOpen : Bool
  statsExpanded : Bool
  isTransitioning : Bool
  stats : Stats
  correct : Nat
  attempts : Nat
deriving DecidableEq, Repr

/-- The store's initial state with no migrated old stats (fresh storage). -/
def initialState (now : String) : QuizState :=
  { index := 0
    mode := .deToEn
    difficulty := "all"
    shuffled := []
    displayWord := none
    displayChoices := []
    hasAnswered := false
    userInput := ""
    lastResult := none
    showHelp := false
    menuOpen := false
    statsExpanded := false
    isTransitioning := false
    stats := { correct := 0, attempts := 0, lastSessionDate := now, wordStats := some [] }
    correct := 0
    attempts := 0 }

/-- The store's `initializeQuiz` action (renamed here because of a lexical clash):
filter by the failed-id set and difficulty, shuffle, freeze the first word and its
choices, reset the position. -/
def initQuiz (rng : Rng) (vocab : List VocabItem) (difficulty : String)
    (s : QuizState) : QuizState :=
  let failedWordIds := getFailedWordIds s.stats
  let filtered := filterVocab vocab (some difficulty) (some failedWordIds)
  let shuffled := shuffleArray rng.randJ filtered
  let firstWord := shuffled.head?
  let choices := match firstWord with
    | some w => getChoicesR rng shuffled w s.mode
    | none => []
  { s with
    difficulty := difficulty
    shuffled := shuffled
    displayWord := firstWord
    displayChoices := choices
    index := 0 }

/-- `setMode`: flip the translation direction and, when a word is displayed,
regenerate its choices under the new mode. -/
def setMode (rng : Rng) (mode : Mode) (s : QuizState) : QuizState :=
  match s.displayWord with
  | some currentWord =>
    { s with mode := mode
             displayChoices := getChoicesR rng s.shuffled currentWord mode }
  | none => { s with mode := mode }

/-- `setDifficulty`: refilter, reshuffle, freeze the new first word, clear help. -/
def setDifficulty (rng : Rng) (difficulty : String) (vocab : List VocabItem)
    (s : QuizState) : QuizState :=
  let failedWordIds := getFailedWordIds s.stats
  let filtered := filterVocab vocab (some difficulty) (some failedWordIds)
  let shuffled := shuffleArray rng.randJ filtered
  let firstWord := shuffled.head?
  let choices := match firstWord with
    | some w => getChoicesR rng shuffled w s.mode
    | none => []
  { s with
    difficulty := difficulty
    shuffled := shuffled
    displayWord := firstWord
    displayChoices := choices
    index := 0
    showHelp := false }

/-- `handleAnswer`: record the verdict and update the stats, leaving
`displayWord`/`displayChoices` untouched.  The `setTimeout` it schedules is
modelled as a separate later call to `advanceToNextQuestion`. -/
def handleAnswer (now : String) (isCorrect : Bool) (currentWord : VocabItem)
    (s : QuizState) : QuizState :=
  let newAttempts := s.attempts + 1
  let newCorrect := s.correct + (if isCorrect then 1 else 0)
  let updatedStats := updateWordStats now s.stats currentWord.id isCorrect
  { s with
    hasAnswered := true
    lastResult := some isCorrect
    showHelp := false
    isTransitioning := true
    stats := { updatedStats with
               correct := newCorrect
               attempts := newAttempts
               lastSessionDate := now }
    correct := newCorrect
    attempts := newAttempts }

/-- `advanceToNextQuestion`: `shuffled[nextIndex % Math.max(1, shuffled.length)]`,
fresh choices, and the atomic clearing of the answer state. -/
def advanceToNextQuestion (rng : Rng) (s : QuizState) : QuizState :=
  let nextIndex := s.index + 1
  let nextWord := s.shuffled.get? (nextIndex % max 1 s.shuffled.length)
  let nextChoices := match nextWord with
    | some w => getChoicesR rng s.shuffled w s.mode
    | none => []
  { s with
    index := nextIndex
    displayWord := nextWord
    displayChoices := nextChoices
    hasAnswered := false
    userInput := ""
    lastResult := none
    isTransitioning := false }

/-- `setUserInput`. -/
def setUserInput (input : String) (s : QuizState) : QuizState :=
  { s with userInput := input }

/-- `submitTextAnswer`: rejected when the trimmed input is empty (falsy) or the
question is already answered; otherwise judged by
`userInput.trim().toLowerCase() === correctAnswer.toLowerCase()`. -/
def submitTextAnswer (now : String) (correctAnswer : String) (currentWord : VocabItem)
    (s : QuizState) : QuizState :=
  if jsTrim s.userInput == "" || s.hasAnswered then s
  else handleAnswer now
    (jsToLower (jsTrim s.userInput) == jsToLower correctAnswer) currentWord s

/-- `toggleShowHelp`. -/
def toggleShowHelp (s : QuizState) : QuizState :=
  { s with showHelp := !s.showHelp }

/-- `setShowHelp`. -/
def setShowHelp (show1 : Bool) (s : QuizState) : QuizState :=
  { s with showHelp := show1 }

/-- `setMenuOpen`. -/
def setMenuOpen (open1 : Bool) (s : QuizState) : QuizState :=
  { s with menuOpen := open1 }

/-- `setStatsExpanded`. -/
def setStatsExpanded (expanded : Bool) (s : QuizState) : QuizState :=
  { s with statsExpanded := expanded }

/-- `resetStats`: adopt the zeroed record returned by `clearStats`. -/
def resetStats (now : String) (s : QuizState) : QuizState :=
  let rs := clearStats now
  { s with stats := rs, correct := rs.correct, attempts := rs.attempts, menuOpen := false }

/-- `restartQuiz`: back to position 0 of the existing deck; note that it does not
touch `displayWord`/`displayChoices` and does not cancel a pending timer. -/
def restartQuiz (s : QuizState) : QuizState :=
  { s with
    index := 0
    hasAnswered := false
    userInput := ""
    lastResult := none
    showHelp := false
    menuOpen := false }

/-! Concrete data used by counterexamples and witnesses.  `idRng` is the random
draw in which every Fisher–Yates swap is a self-swap and both `sort` calls leave
their input in place — a draw the real random source can produce, so every state
built from it is reachable. -/

/-- The identity random draw. -/
def idRng : Rng :=
  { randJ := fun i => i, shuffleOthers := id, shuffleOptions := id }

/-- Sample word 1 (from the repository's test vocabulary). -/
def itemA : VocabItem :=
  { id := "1", de := "Hallo", en := "Hello", difficulty := "easy", tags := [] }

/-- Sample word 2. -/
def itemB : VocabItem :=
  { id := "2", de := "Danke", en := "Thank you", difficulty := "medium", tags := [] }

/-- Sample word 3. -/
def itemC : VocabItem :=
  { id := "3", de := "Bitte", en := "Please", difficulty := "medium", tags := [] }

/-- Sample word 4. -/
def itemD : VocabItem :=
  { id := "4", de := "Haus", en := "House", difficulty := "hard", tags := [] }

/-- A four-word vocabulary with distinct ids. -/
def exVocab : List VocabItem := [itemA, itemB, itemC, itemD]

/-- The session right after initialization over `exVocab` under the identity draw. -/
def exInit : QuizState := initQuiz idRng exVocab "all" (initialState "d0")

/-- The session after answering the first word correctly (feedback showing). -/
def exAnswered : QuizState := handleAnswer "d1" true itemA exInit

/-- `restartQuiz` fired while the deferred advance of `exAnswered` is still pending. -/
def exReset : QuizState := restartQuiz exAnswered

/-- The session after one ordinary advance from the initial position. -/
def exAdvanced : QuizState := advanceToNextQuestion idRng exInit

/-- `restartQuiz` after that advance: position 0 again, but `displayWord` is untouched. -/
def exRestart2 : QuizState := restartQuiz exAdvanced

/-- A presenting-state session with the text buffer holding `"hello"`. -/
def exTextHello : QuizState := setUserInput "hello" exInit

/-- An older persisted record in which the per-word map is absent. -/
def exOldStored : Stats :=
  { correct := 3, attempts := 5, lastSessionDate := "2024-01-01", wordStats := none }

/-- A persisted record that carries a per-word map. -/
def exNewStored : Stats :=
  { correct := 1, attempts := 2, lastSessionDate := "2024-01-02",
    wordStats := some [("1", { attempts := 2, correct := 1, lastAttempted := "2024-01-02" })] }

/-! Helper lemmas about the object update `{...obj, [k]: v}` and property lookup. -/

theorem lookupWord_map_set (m : List (String × WordStats)) (k : String) (v : WordStats) :
    lookupWord (m.map fun p => if p.1 == k then (k, v) else p) k =
      (if m.any (fun p => p.1 == k) then some v else none) := by
  induction m with
  | nil => rfl
  | cons p t ih =>
    simp only [List.map_cons, List.any_cons]
    by_cases hp : p.1 = k
    · have hb : (p.1 == k) = true := beq_iff_eq.mpr hp
      rw [if_pos hb]
      simp [lookupWord, hb]
    · have hb : (p.1 == k) = false := beq_eq_false_iff_ne.mpr hp
      rw [if_neg (by simp [hb])]
      simp only [lookupWord]
      rw [if_neg (by simp [hb])]
      by_cases hany : (t.any fun p => p.1 == k) = true
      · rw [if_pos (by simp [hany]), ih, if_pos hany]
      · have hany' : (t.any fun p => p.1 == k) = false := by
          cases h2 : (t.any fun p => p.1 == k) with
          | true => exact absurd h2 hany
          | false => rfl
        rw [if_neg (by simp [hb, hany']), ih, if_neg hany]

theorem lookupWord_append (m l2 : List (String × WordStats)) (k : String) :
    lookupWord (m ++ l2) k =
      match lookupWord m k with
      | some v => some v
      | none => lookupWord l2 k := by
  induction m with
  | nil => rfl
  | cons p t ih =>
    cases hp : (p.1 == k) with
    | true => simp [lookupWord, hp]
    | false => simp [lookupWord, hp, ih]

theorem lookupWord_eq_none_of_any_false (m : List (String × WordStats)) (k : String)
    (h : m.any (fun p => p.1 == k) = false) : lookupWord m k = none := by
  induction m with
  | nil => rfl
  | cons p t ih =>
    simp only [List.any_cons, Bool.or_eq_false_iff] at h
    simp [lookupWord, h.1, ih h.2]

theorem lookupWord_objSet_self (m : List (String × WordStats)) (k : String) (v : WordStats) :
    lookupWord (objSet m k v) k = some v := by
  unfold objSet
  by_cases ha : (m.any fun p => p.1 == k) = true
  · rw [if_pos ha, lookupWord_map_set, if_pos ha]
  · have ha' : (m.any fun p => p.1 == k) = false := by
      cases h2 : (m.any fun p => p.1 == k) with
      | true => exact absurd h2 ha
      | false => rfl
    rw [if_neg ha, lookupWord_append, lookupWord_eq_none_of_any_false m k ha']
    simp [lookupWord]

theorem lookupWord_map_set_ne (m : List (String × WordStats)) (k k' : String) (v : WordStats)
    (h : k ≠ k') :
    lookupWord (m.map fun p => if p.1 == k' then (k', v) else p) k = lookupWord m k := by
  induction m with
  | nil => rfl
  | cons p t ih =>
    simp only [List.map_cons]
    by_cases hp : p.1 = k'
    · have hb : (p.1 == k') = true := beq_iff_eq.mpr hp
      have hpk : (p.1 == k) = false := beq_eq_false_iff_ne.mpr fun e => h (e ▸ hp)
      have hk'k : (k' == k) = false := beq_eq_false_iff_ne.mpr fun e => h e.symm
      rw [if_pos hb]
      simp only [lookupWord]
      rw [if_neg (by simp [hk'k]), if_neg (by simp [hpk])]
      exact ih
    · have hb : (p.1 == k') = false := beq_eq_false_iff_ne.mpr hp
      rw [if_neg (by simp [hb])]
      simp only [lookupWord]
      by_cases hq : p.1 = k
      · have hqb : (p.1 == k) = true := beq_iff_eq.mpr hq
        rw [if_pos hqb, if_pos hqb]
      · have hqb : (p.1 == k) = false := beq_eq_false_iff_ne.mpr hq
        rw [if_neg (by simp [hqb]), if_neg (by simp [hqb])]
        exact ih

theorem lookupWord_objSet_ne (m : List (String × WordStats)) (k k' : String) (v : WordStats)
    (h : k ≠ k') : lookupWord (objSet m k' v) k = lookupWord m k := by
  unfold objSet
  by_cases ha : (m.any fun p => p.1 == k') = true
  · rw [if_pos ha]
    exact lookupWord_map_set_ne m k k' v h
  · rw [if_neg ha, lookupWord_append]
    have hk'k : (k' == k) = false := beq_eq_false_iff_ne.mpr fun e => h e.symm
    cases hm : lookupWord m k with
    | none => simp [lookupWord, hk'k]
    | some v0 => rfl

/-- C10: `updateWordStats` is a pure frame-preserving update — the returned record keeps
the aggregate `correct`, `attempts` and `lastSessionDate` fields of the input, and the
per-word entry of every word id other than the updated one is unchanged (the input is
never mutated: the embedding is of the spread-copying code, which builds a new record). -/
theorem updateWordStats_frame (stats : Stats) (w : String) (b : Bool) (now : String) :
    (updateWordStats now stats w b).correct = stats.correct ∧
    (updateWordStats now stats w b).attempts = stats.attempts ∧
    (updateWordStats now stats w b).lastSessionDate = stats.lastSessionDate ∧
    ∀ k, k ≠ w →
      lookupWord ((updateWordStats now stats w b).wordStats.getD []) k =
        lookupWord (stats.wordStats.getD []) k := by
  refine ⟨rfl, rfl, rfl, ?_⟩
  intro k hk
  simp only [updateWordStats, Option.getD_some]
  exact lookupWord_objSet_ne _ k w _ hk

/-- C10 witness: updating word `"1"` leaves word `"2"`'s entry and the aggregates intact. -/
theorem updateWordStats_frame_witness :
    (updateWordStats "t1" exNewStored "1" true).correct = exNewStored.correct ∧
    lookupWord ((updateWordStats "t1" exNewStored "1" true).wordStats.getD []) "2" =
      lookupWord (exNewStored.wordStats.getD []) "2" :=
  ⟨(updateWordStats_frame exNewStored "1" true "t1").1,
   (updateWordStats_frame exNewStored "1" true "t1").2.2.2 "2" (by decide)⟩

/-- C8: an accepted answer increments the aggregate attempts by exactly 1, the aggregate
correct by 1 iff the answer was correct (both in the session counters and in the merged
stats record), and upserts the current word's per-word stat accordingly, creating it on
the first attempt; in particular one correct answer from zeroed stats yields aggregate
correct = 1, attempts = 1 and that word's stat with correct = 1, attempts = 1. -/
theorem handleAnswer_stats_spec (s : QuizState) (now : String) (b : Bool) (w : VocabItem) :
    (handleAnswer now b w s).attempts = s.attempts + 1 ∧
    (handleAnswer now b w s).correct = s.correct + (if b then 1 else 0) ∧
    (handleAnswer now b w s).stats.attempts = s.attempts + 1 ∧
    (handleAnswer now b w s).stats.correct = s.correct + (if b then 1 else 0) ∧
    lookupWord ((handleAnswer now b w s).stats.wordStats.getD []) w.id =
      some { attempts := ((lookupWord (s.stats.wordStats.getD []) w.id).getD
               { attempts := 0, correct := 0, lastAttempted := now }).attempts + 1
             correct := ((lookupWord (s.stats.wordStats.getD []) w.id).getD
               { attempts := 0, correct := 0, lastAttempted := now }).correct +
               (if b then 1 else 0)
             lastAttempted := now } ∧
    (handleAnswer "t1" true itemA (initialState "t0")).correct = 1 ∧
    (handleAnswer "t1" true itemA (initialState "t0")).attempts = 1 ∧
    lookupWord ((handleAnswer "t1" true itemA (initialState "t0")).stats.wordStats.getD [])
      itemA.id = some { attempts := 1, correct := 1, lastAttempted := "t1" } := by
  refine ⟨rfl, rfl, rfl, rfl, ?_, by decide, by decide, by decide⟩
  simp only [handleAnswer, updateWordStats, Option.getD_some]
  exact lookupWord_objSet_self _ _ _

/-- C3 counterexample: `handleAnswer` — the choice-click submission path — carries no
`hasAnswered` guard: invoked on a reachable answered state it increments the aggregate
attempts, so it is not a no-op there. -/
theorem handleAnswer_not_gated :
    exAnswered.hasAnswered = true ∧
    (handleAnswer "d2" true itemA exAnswered).attempts = exAnswered.attempts + 1 ∧
    handleAnswer "d2" true itemA exAnswered ≠ exAnswered := by
  refine ⟨rfl, rfl, by decide⟩

/-- C3 (amended): `submitTextAnswer` is a strict no-op whenever the question is already
answered or the trimmed text input is empty — in particular the aggregate attempts and
correct counters never change.  (The choice-click path `handleAnswer` itself is
unguarded; its double-submit protection lives in the disabled UI button.) -/
theorem submitText_rejected_noop (s : QuizState) (now ca : String) (w : VocabItem)
    (h : s.hasAnswered = true ∨ jsTrim s.userInput = "") :
    submitTextAnswer now ca w s = s ∧
    (submitTextAnswer now ca w s).attempts = s.attempts ∧
    (submitTextAnswer now ca w s).correct = s.correct := by
  have he : submitTextAnswer now ca w s = s := by
    have hc : (jsTrim s.userInput == "" || s.hasAnswered) = true := by
      rcases h with h | h
      · simp [h]
      · simp [h]
    unfold submitTextAnswer
    simp [hc]
  exact ⟨he, by rw [he], by rw [he]⟩

/-- C3 witness: in the reachable answered state, a text re-submission is a no-op. -/
theorem submitText_rejected_noop_witness :
    submitTextAnswer "d2" "Hello" itemA exAnswered = exAnswered :=
  (submitText_rejected_noop exAnswered "d2" "Hello" itemA (Or.inl rfl)).1

/-- C1 counterexample: in the reachable state `exAnswered` (feedback showing,
`hasAnswered = true`), applying `setMode` — an operation other than Advance —
regenerates and thereby changes `displayChoices`. -/
theorem setMode_changes_frozen_choices :
    exAnswered.hasAnswered = true ∧
    (setMode idRng Mode.enToDe exAnswered).displayChoices ≠ exAnswered.displayChoices :=
  ⟨rfl, by decide⟩

/-- C1 (amended): while `hasAnswered` is true, the submission paths and every other
non-advancing action leave the frozen display untouched — `handleAnswer` and
`submitTextAnswer` (and the input, UI-flag, stats-reset and restart actions) preserve
both `displayWord` and `displayChoices` — and `setMode` still preserves `displayWord`,
regenerating only `displayChoices` for that same word. -/
theorem frozen_display_amended (s : QuizState) (h : s.hasAnswered = true)
    (now ca input : String) (b flag : Bool) (w : VocabItem) (rng : Rng) (m : Mode) :
    ((handleAnswer now b w s).displayWord = s.displayWord ∧
      (handleAnswer now b w s).displayChoices = s.displayChoices) ∧
    ((submitTextAnswer now ca w s).displayWord = s.displayWord ∧
      (submitTextAnswer now ca w s).displayChoices = s.displayChoices) ∧
    ((setUserInput input s).displayWord = s.displayWord ∧
      (setUserInput input s).displayChoices = s.displayChoices) ∧
    ((toggleShowHelp s).displayWord = s.displayWord ∧
      (toggleShowHelp s).displayChoices = s.displayChoices) ∧
    ((setShowHelp flag s).displayWord = s.displayWord ∧
      (setShowHelp flag s).displayChoices = s.displayChoices) ∧
    ((setMenuOpen flag s).displayWord = s.displayWord ∧
      (setMenuOpen flag s).displayChoices = s.displayChoices) ∧
    ((setStatsExpanded flag s).displayWord = s.displayWord ∧
      (setStatsExpanded flag s).displayChoices = s.displayChoices) ∧
    ((resetStats now s).displayWord = s.displayWord ∧
      (resetStats now s).displayChoices = s.displayChoices) ∧
    ((restartQuiz s).displayWord = s.displayWord ∧
      (restartQuiz s).displayChoices = s.displayChoices) ∧
    (setMode rng m s).displayWord = s.displayWord := by
  refine ⟨⟨rfl, rfl⟩, ?_, ⟨rfl, rfl⟩, ⟨rfl, rfl⟩, ⟨rfl, rfl⟩, ⟨rfl, rfl⟩, ⟨rfl, rfl⟩,
    ⟨rfl, rfl⟩, ⟨rfl, rfl⟩, ?_⟩
  · unfold submitTextAnswer
    split
    · exact ⟨rfl, rfl⟩
    · exact ⟨rfl, rfl⟩
  · unfold setMode
    split
    · rfl
    · rfl

/-- C1 witness: the amended freeze invariant at the reachable answered state. -/
theorem frozen_display_amended_witness :
    (handleAnswer "d2" false itemB exAnswered).displayWord = exAnswered.displayWord ∧
    (setMode idRng Mode.enToDe exAnswered).displayWord = exAnswered.displayWord :=
  ⟨(frozen_display_amended exAnswered rfl "d2" "x" "y" false false itemB idRng
      Mode.enToDe).1.1,
   (frozen_display_amended exAnswered rfl "d2" "x" "y" false false itemB idRng
      Mode.enToDe).2.2.2.2.2.2.2.2.2⟩

/-- C2: the deferred advance scheduled by `handleAnswer` is never cancelled and checks no
generation counter, so when it fires after `restartQuiz` it corrupts the freshly reset
session: the index leaves the reset position 0 and the displayed word is replaced —
the deck is skipped ahead, contradicting the claim. -/
theorem stale_advance_corrupts_restart :
    exReset.index = 0 ∧
    (advanceToNextQuestion idRng exReset).index = 1 ∧
    (advanceToNextQuestion idRng exReset).displayWord ≠ exReset.displayWord := by
  refine ⟨rfl, rfl, by decide⟩

/-- C7 counterexample: the code lowercases but never trims the stored term.  With term
`" Hello"` and input `"hello"` the two are a case-insensitive whitespace-trimmed exact
match, yet the submission is judged incorrect. -/
theorem submitText_untrimmed_term :
    exTextHello.hasAnswered = false ∧
    jsTrim exTextHello.userInput ≠ "" ∧
    jsToLower (jsTrim exTextHello.userInput) = jsToLower (jsTrim " Hello") ∧
    (submitTextAnswer "d1" " Hello" itemA exTextHello).lastResult = some false := by
  refine ⟨rfl, by decide, by decide, by decide⟩

/-- C7 (amended): for a non-empty, non-whitespace input in an unanswered state,
`submitTextAnswer` judges the answer correct iff the trimmed, lowercased input equals
the lowercased term — whitespace is trimmed from the user input only, not from the
stored term — and marks the question answered. -/
theorem submitText_correctness (s : QuizState) (now ca : String) (w : VocabItem)
    (h1 : s.hasAnswered = false) (h2 : jsTrim s.userInput ≠ "") :
    (submitTextAnswer now ca w s).lastResult =
      some (jsToLower (jsTrim s.userInput) == jsToLower ca) ∧
    (submitTextAnswer now ca w s).hasAnswered = true := by
  have hc : (jsTrim s.userInput == "" || s.hasAnswered) = false := by
    simp [h1, h2]
  unfold submitTextAnswer
  simp only [hc, Bool.false_eq_true, if_false]
  exact ⟨rfl, rfl⟩

/-- C7 witness: the spec scenario — input `"hello"` against term `"Hello"` is accepted. -/
theorem submitText_correctness_witness :
    (submitTextAnswer "d1" "Hello" itemA exTextHello).lastResult = some true ∧
    (submitTextAnswer "d1" "Hello" itemA exTextHello).hasAnswered = true :=
  ⟨(submitText_correctness exTextHello "d1" "Hello" itemA rfl (by decide)).1.trans
      (congrArg some (by decide)),
   (submitText_correctness exTextHello "d1" "Hello" itemA rfl (by decide)).2⟩

/-- C9 counterexample: re-saving a loaded legacy record (per-word map absent) appends a
`"wordStats"` field, so the persisted content is not byte-equivalent to the original. -/
theorem roundtrip_legacy_not_byte_equal :
    saveStats (loadStats exOldStored) ≠ jsonOfStats exOldStored := by decide

/-- C9 (amended): a previously saved record that carries the per-word map round-trips
byte-equivalently, and one load/save cycle is a fixed point — loading is idempotent, so
re-saving a loaded record yields identical bytes ever after.  (A legacy record missing
the map instead gains a `"wordStats"` field on its first re-save.) -/
theorem roundtrip_spec (r : Stats) :
    (∀ m, r.wordStats = some m → saveStats (loadStats r) = jsonOfStats r) ∧
    loadStats (loadStats r) = loadStats r ∧
    saveStats (loadStats (loadStats r)) = saveStats (loadStats r) := by
  have hidem : loadStats (loadStats r) = loadStats r := by
    cases r with
    | mk c a d ws => cases ws <;> rfl
  refine ⟨?_, hidem, by rw [hidem]⟩
  intro m hm
  cases r with
  | mk c a d ws =>
    have hw : ws = some m := hm
    subst hw
    rfl

/-- C9 witness: a saved record carrying its per-word map reloads and re-saves to the
exact same bytes. -/
theorem roundtrip_spec_witness :
    saveStats (loadStats exNewStored) = jsonOfStats exNewStored :=
  (roundtrip_spec exNewStored).1 _ rfl

theorem lookupWord_mem (m : List (String × WordStats)) (k : String) (v : WordStats)
    (h : lookupWord m k = some v) : k ∈ m.map Prod.fst := by
  induction m with
  | nil => simp [lookupWord] at h
  | cons p t ih =>
    rw [List.map_cons]
    by_cases hp : p.1 = k
    · rw [hp]
      exact List.mem_cons_self _ _
    · have hb : (p.1 == k) = false := beq_eq_false_iff_ne.mpr hp
      simp only [lookupWord] at h
      rw [if_neg (by simp [hb])] at h
      exact List.mem_cons_of_mem _ (ih h)

/-- C5 counterexample: JavaScript treats the empty string as falsy, so the present
selector `""` — which is neither `"all"` nor `"failed"` — lets every item through:
an item of difficulty `"easy"` appears in the result although its tier does not equal
the selector. -/
theorem filterVocab_empty_selector_leak :
    (some "" ≠ some "all" ∧ some "" ≠ some "failed" ∧
      (some "" : Option String).isSome = true) ∧
    itemA ∈ filterVocab [itemA] (some "") (some []) ∧
    itemA.difficulty ≠ "" := by
  refine ⟨⟨by decide, by decide, rfl⟩, by decide, by decide⟩

/-- C5 (amended): `filterVocab` always returns a sublist of its input; when the selector
is present and neither `"all"` nor `"failed"` nor the (falsy) empty string, every item
in the result has exactly that difficulty tier; with the `"failed"` selector and a
supplied failed-id set the result is exactly the input items whose id is in that set;
and `getFailedWordIds` returns exactly the word ids whose stat has attempts > correct. -/
theorem filterVocab_spec (items : List VocabItem) (difficulty : Option String)
    (fids : List String) (stats : Stats) :
    (filterVocab items difficulty (some fids)).Sublist items ∧
    (∀ d, difficulty = some d → d ≠ "all" → d ≠ "failed" → d ≠ "" →
      ∀ it ∈ filterVocab items difficulty (some fids), it.difficulty = d) ∧
    (difficulty = some "failed" →
      filterVocab items difficulty (some fids) =
        items.filter fun it => fids.contains it.id) ∧
    (∀ wid, wid ∈ getFailedWordIds stats ↔
      ∃ ws, lookupWord (stats.wordStats.getD []) wid = some ws ∧
        ws.correct < ws.attempts) := by
  refine ⟨List.filter_sublist _, ?_, ?_, ?_⟩
  · intro d hd h1 h2 h3 it hit
    subst hd
    rw [filterVocab, List.mem_filter] at hit
    have hpred := hit.2
    rw [if_neg (by simp [h2])] at hpred
    rw [if_neg (by simp [strFalsy, h1, h3])] at hpred
    by_cases hdiff : it.difficulty = d
    · exact hdiff
    · rw [if_pos (by simp [hdiff])] at hpred
      exact absurd hpred (by simp)
  · intro hd
    subst hd
    unfold filterVocab
    apply List.filter_congr
    intro it _
    rw [if_pos (by simp)]
    rfl
  · intro wid
    unfold getFailedWordIds
    rw [List.mem_filter]
    constructor
    · rintro ⟨hmem, hp⟩
      cases hl : lookupWord (stats.wordStats.getD []) wid with
      | none => rw [hl] at hp; exact absurd hp (by simp)
      | some ws =>
        rw [hl] at hp
        exact ⟨ws, rfl, by simpa using hp⟩
    · rintro ⟨ws, hl, hfail⟩
      refine ⟨lookupWord_mem _ _ _ hl, ?_⟩
      rw [hl]
      simpa using hfail

/-- C5 witness: the amended filter contract at concrete data — the `"easy"` tier, the
`"failed"` selector, and `getFailedWordIds` over a record with one failed word. -/
theorem filterVocab_spec_witness :
    (filterVocab exVocab (some "easy") (some [])).Sublist exVocab ∧
    (∀ it ∈ filterVocab exVocab (some "easy") (some []), it.difficulty = "easy") ∧
    filterVocab exVocab (some "failed") (some ["2"]) =
      exVocab.filter (fun it => ["2"].contains it.id) ∧
    ("1" ∈ getFailedWordIds exNewStored ↔
      ∃ ws, lookupWord (exNewStored.wordStats.getD []) "1" = some ws ∧
        ws.correct < ws.attempts) :=
  ⟨(filterVocab_spec exVocab (some "easy") [] exNewStored).1,
   fun it hit => (filterVocab_spec exVocab (some "easy") [] exNewStored).2.1 "easy" rfl
     (by decide) (by decide) (by decide) it hit,
   (filterVocab_spec exVocab (some "failed") ["2"] exNewStored).2.2.1 rfl,
   (filterVocab_spec exVocab (some "failed") ["2"] exNewStored).2.2.2 "1"⟩

/-- C6 counterexample: a reachable session whose deck has more than one (pairwise
distinct) item and where Advance does not change the displayed word — after
`restartQuiz` the reset index is out of sync with the untouched `displayWord`, and the
stale advance lands on the very word already displayed. -/
theorem advance_can_repeat_word :
    1 < exRestart2.shuffled.length ∧
    (advanceToNextQuestion idRng exRestart2).displayWord = exRestart2.displayWord := by
  refine ⟨by decide, by decide⟩

/-- C6 (amended): on a non-empty deck, Advance increments the index, displays
`shuffled[(index + 1) % length]` with freshly generated choices for it, and in the same
atomic update clears `hasAnswered`, `lastResult` and the text buffer; the new word
differs from the prior one whenever the deck has more than one item, its entries are
pairwise distinct, and the prior `displayWord` is in sync with the index
(`displayWord = shuffled[index % length]`). -/
theorem advance_spec (rng : Rng) (s : QuizState) (hne : s.shuffled ≠ []) :
    (advanceToNextQuestion rng s).index = s.index + 1 ∧
    (advanceToNextQuestion rng s).displayWord =
      s.shuffled.get? ((s.index + 1) % s.shuffled.length) ∧
    (∃ w, (advanceToNextQuestion rng s).displayWord = some w ∧
      (advanceToNextQuestion rng s).displayChoices = getChoicesR rng s.shuffled w s.mode) ∧
    (advanceToNextQuestion rng s).hasAnswered = false ∧
    (advanceToNextQuestion rng s).lastResult = none ∧
    (advanceToNextQuestion rng s).userInput = "" ∧
    (1 < s.shuffled.length → s.shuffled.Nodup →
      s.displayWord = s.shuffled.get? (s.index % s.shuffled.length) →
      (advanceToNextQuestion rng s).displayWord ≠ s.displayWord) := by
  have hlen : 0 < s.shuffled.length := List.length_pos.mpr hne
  have hmax : max 1 s.shuffled.length = s.shuffled.length := Nat.max_eq_right hlen
  have hi1 : (s.index + 1) % s.shuffled.length < s.shuffled.length := Nat.mod_lt _ hlen
  have e1 : (advanceToNextQuestion rng s).displayWord =
      s.shuffled.get? ((s.index + 1) % max 1 s.shuffled.length) := rfl
  have hw : s.shuffled.get? ((s.index + 1) % max 1 s.shuffled.length) =
      some (s.shuffled.get ⟨(s.index + 1) % s.shuffled.length, hi1⟩) := by
    rw [hmax]
    exact List.get?_eq_get hi1
  refine ⟨rfl, by rw [e1, hmax], ?_, rfl, rfl, rfl, ?_⟩
  · refine ⟨s.shuffled.get ⟨(s.index + 1) % s.shuffled.length, hi1⟩, e1.trans hw, ?_⟩
    have e2 : (advanceToNextQuestion rng s).displayChoices =
        match s.shuffled.get? ((s.index + 1) % max 1 s.shuffled.length) with
        | some w => getChoicesR rng s.shuffled w s.mode
        | none => [] := rfl
    rw [e2, hw]
  · intro hgt hnodup hsync
    have hi0 : s.index % s.shuffled.length < s.shuffled.length := Nat.mod_lt _ hlen
    intro heq
    rw [e1, hmax, List.get?_eq_get hi1, hsync, List.get?_eq_get hi0] at heq
    have hfin : (⟨(s.index + 1) % s.shuffled.length, hi1⟩ : Fin s.shuffled.length) =
        ⟨s.index % s.shuffled.length, hi0⟩ :=
      (hnodup.get_inj_iff).mp (Option.some.inj heq)
    have hidx : (s.index + 1) % s.shuffled.length = s.index % s.shuffled.length :=
      congrArg Fin.val hfin
    have h1 : 1 % s.shuffled.length = 1 := Nat.mod_eq_of_lt hgt
    rw [Nat.add_mod, h1] at hidx
    rcases Nat.lt_or_ge (s.index % s.shuffled.length + 1) s.shuffled.length with hlt | hge
    · rw [Nat.mod_eq_of_lt hlt] at hidx
      omega
    · have heq2 : s.index % s.shuffled.length + 1 = s.shuffled.length := by omega
      rw [heq2, Nat.mod_self] at hidx
      omega

/-- C6 witness: the advance postcondition at the freshly initialized session, including
the word change on its four-word, in-sync deck. -/
theorem advance_spec_witness :
    (advanceToNextQuestion idRng exInit).index = exInit.index + 1 ∧
    (advanceToNextQuestion idRng exInit).hasAnswered = false ∧
    (advanceToNextQuestion idRng exInit).displayWord ≠ exInit.displayWord := by
  have h := advance_spec idRng exInit (by decide)
  exact ⟨h.1, h.2.2.2.1, h.2.2.2.2.2.2 (by decide) (by decide) (by decide)⟩

theorem length_filter_ne_id (l : List VocabItem) (c : VocabItem)
    (hmem : c ∈ l) (hids : (l.map VocabItem.id).Nodup) :
    (l.filter fun v => v.id != c.id).length = l.length - 1 := by
  induction l with
  | nil => cases hmem
  | cons h t ih =>
    rw [List.map_cons, List.nodup_cons] at hids
    rcases List.mem_cons.mp hmem with rfl | hct
    · rw [List.filter_cons_of_neg (by simp)]
      have ht : t.filter (fun v => v.id != c.id) = t := by
        apply List.filter_eq_self.mpr
        intro a ha
        simp only [bne_iff_ne, ne_eq]
        intro he
        exact hids.1 (he ▸ List.mem_map_of_mem VocabItem.id ha)
      rw [ht]
      simp
    · have hne : h.id ≠ c.id := by
        intro he
        exact hids.1 (he ▸ List.mem_map_of_mem VocabItem.id hct)
      rw [List.filter_cons_of_pos (by simp [hne])]
      have hpos : 0 < t.length := List.length_pos.mpr (List.ne_nil_of_mem hct)
      rw [List.length_cons, ih hct hids.2, List.length_cons]
      omega

/-- C4: with a working set of distinct ids containing the current word, and the two
random sorts modelled as arbitrary permutations, `getChoices` returns exactly
`min 4 (working set size)` options with exactly one marked correct; the correct option's
text equals the current word's target-language term under the active mode, and the
distractor options arise from `min 3 (size - 1)` pairwise-distinct items of the working
set other than the current word — degenerate small sets simply yield fewer options. -/
theorem getChoices_spec (so : List VocabItem → List VocabItem)
    (sc : List Choice → List Choice) (vocab : List VocabItem) (current : VocabItem)
    (mode : Mode) (hso : ∀ l, (so l).Perm l) (hsc : ∀ l, (sc l).Perm l)
    (hmem : current ∈ vocab) (hids : (vocab.map VocabItem.id).Nodup) :
    (getChoices so sc vocab current mode).length = min 4 vocab.length ∧
    ((getChoices so sc vocab current mode).filter (fun c => c.isCorrect)).length = 1 ∧
    (∀ c ∈ getChoices so sc vocab current mode, c.isCorrect = true →
      c.text = targetTerm mode current) ∧
    ∃ ds : List VocabItem,
      (getChoices so sc vocab current mode).Perm
        ({ text := targetTerm mode current, isCorrect := true } ::
          ds.map fun v => { text := targetTerm mode v, isCorrect := false }) ∧
      ds.length = min 3 (vocab.length - 1) ∧
      (ds.map VocabItem.id).Nodup ∧
      (∀ v ∈ ds, v ∈ vocab ∧ v.id ≠ current.id) := by
  have hothers_perm : (so (vocab.filter fun v => v.id != current.id)).Perm
      (vocab.filter fun v => v.id != current.id) := hso _
  have hlen_others : (vocab.filter fun v => v.id != current.id).length =
      vocab.length - 1 := length_filter_ne_id vocab current hmem hids
  have hlen_so : (so (vocab.filter fun v => v.id != current.id)).length =
      vocab.length - 1 := hothers_perm.length_eq.trans hlen_others
  have hds_len : ((so (vocab.filter fun v => v.id != current.id)).take 3).length =
      min 3 (vocab.length - 1) := by
    rw [List.length_take, hlen_so]
  have hvpos : 0 < vocab.length := List.length_pos.mpr (List.ne_nil_of_mem hmem)
  have hgc : getChoices so sc vocab current mode =
      sc ({ text := targetTerm mode current, isCorrect := true } ::
        ((so (vocab.filter fun v => v.id != current.id)).take 3).map
          fun v => { text := targetTerm mode v, isCorrect := false }) := rfl
  have hperm : (getChoices so sc vocab current mode).Perm
      ({ text := targetTerm mode current, isCorrect := true } ::
        ((so (vocab.filter fun v => v.id != current.id)).take 3).map
          fun v => { text := targetTerm mode v, isCorrect := false }) := by
    rw [hgc]
    exact hsc _
  have hlen1 : (getChoices so sc vocab current mode).length = min 4 vocab.length := by
    rw [hperm.length_eq, List.length_cons, List.length_map, hds_len]
    omega
  have hfilter : ((getChoices so sc vocab current mode).filter
      fun c => c.isCorrect).length = 1 := by
    rw [(hperm.filter fun c => c.isCorrect).length_eq]
    rw [List.filter_cons_of_pos rfl]
    have hnil : ((((so (vocab.filter fun v => v.id != current.id)).take 3).map
        fun v => { text := targetTerm mode v, isCorrect := false } : List Choice).filter
          fun c => c.isCorrect) = [] := by
      rw [List.filter_eq_nil_iff]
      intro a ha
      rcases List.mem_map.mp ha with ⟨v, _, rfl⟩
      simp
    rw [hnil]
    rfl
  have hcorrect : ∀ c ∈ getChoices so sc vocab current mode, c.isCorrect = true →
      c.text = targetTerm mode current := by
    intro c hc hcor
    rcases List.mem_cons.mp (hperm.mem_iff.mp hc) with rfl | hcd
    · rfl
    · rcases List.mem_map.mp hcd with ⟨v, _, rfl⟩
      simp at hcor
  have hnodup_others : ((vocab.filter fun v => v.id != current.id).map
      VocabItem.id).Nodup :=
    ((List.filter_sublist vocab).map VocabItem.id).nodup hids
  have hnodup_so : ((so (vocab.filter fun v => v.id != current.id)).map
      VocabItem.id).Nodup :=
    ((hothers_perm.map VocabItem.id).nodup_iff).mpr hnodup_others
  have hnodup_ds : (((so (vocab.filter fun v => v.id != current.id)).take 3).map
      VocabItem.id).Nodup :=
    ((List.take_sublist 3 _).map VocabItem.id).nodup hnodup_so
  have hmem_ds : ∀ v ∈ (so (vocab.filter fun v => v.id != current.id)).take 3,
      v ∈ vocab ∧ v.id ≠ current.id := by
    intro v hv
    have hv1 : v ∈ so (vocab.filter fun v => v.id != current.id) :=
      (List.take_sublist 3 _).subset hv
    have hv2 : v ∈ vocab.filter fun v => v.id != current.id :=
      hothers_perm.mem_iff.mp hv1
    have hv3 := List.mem_filter.mp hv2
    exact ⟨hv3.1, by simpa using hv3.2⟩
  exact ⟨hlen1, hfilter, hcorrect,
    (so (vocab.filter fun v => v.id != current.id)).take 3,
    hperm, hds_len, hnodup_ds, hmem_ds⟩

/-- C4 witness: the choice-generator contract instantiated at the four-word vocabulary
under the identity draws. -/
theorem getChoices_spec_witness :
    (getChoices id id exVocab itemA Mode.deToEn).length = min 4 exVocab.length ∧
    ((getChoices id id exVocab itemA Mode.deToEn).filter
      (fun c => c.isCorrect)).length = 1 ∧
    (∀ c ∈ getChoices id id exVocab itemA Mode.deToEn, c.isCorrect = true →
      c.text = targetTerm Mode.deToEn itemA) ∧
    ∃ ds : List VocabItem,
      (getChoices id id exVocab itemA Mode.deToEn).Perm
        ({ text := targetTerm Mode.deToEn itemA, isCorrect := true } ::
          ds.map fun v => { text := targetTerm Mode.deToEn v, isCorrect := false }) ∧
      ds.length = min 3 (exVocab.length - 1) ∧
      (ds.map VocabItem.id).Nodup ∧
      (∀ v ∈ ds, v ∈ exVocab ∧ v.id ≠ itemA.id) :=
  getChoices_spec id id exVocab itemA Mode.deToEn (fun l => List.Perm.refl l)
    (fun l => List.Perm.refl l) (by decide) (by decide)

end HrLearning
